import Mathlib

/-!
Shallow embedding of `halo2-tutorials/src/chap_2/exercise_5.rs`.

The source defines a single-gate halo2 circuit proving knowledge of private
a, b, c with out = ((a*b)^2 * c + c)^3:
  * `SimpleChip::configure` declares three advice columns, an instance
    column, a fixed (constant) column, a selector, and a gate
    "complex_gate" enforcing `s * (e_cub - out) = 0` with
    `e = (l*r)*(l*r)*c + c`, `e_cub = e*e*e`.
  * `SimpleChip::assign` enables the selector at region offset 0, writes
    a, b into advice 0/1 at offset 0, writes c into advice 2 at offset 0
    through the constant-binding path, and writes `e_cub` into advice 0
    at offset 1, returning that cell.
  * `SimpleChip::expose_public` constrains a cell to the instance column.
  * `MyCircuit` (fields c, a, b) orchestrates assign then expose_public.

The embedding models halo2's `Value` as an explicit known/unknown sum,
the constraint system as a record of allocated columns and gates over a
polynomial expression AST, and the layouter as a record of fallible
primitive operations over an explicit trace state (a mock instantiation
records the trace; the mock-prover check evaluates the gates over the
trace and checks the instance bindings).
-/

namespace Ex5

/-- halo2's `Value<F>` (the spec's DeferredValue): a field element that is
either concretely known or symbolically unknown. -/
inductive Value (F : Type) where
  | known (x : F)
  | unknown
deriving DecidableEq, Repr

namespace Value

variable {F : Type}

/-- Multiplication lifted through `Value`: known on two knowns, else unknown. -/
def mul [Mul F] : Value F → Value F → Value F
  | known x, known y => known (x * y)
  | _, _ => unknown

/-- Addition lifted through `Value`: known on two knowns, else unknown. -/
def add [Add F] : Value F → Value F → Value F
  | known x, known y => known (x + y)
  | _, _ => unknown

instance [Mul F] : Mul (Value F) := ⟨Value.mul⟩

instance [Add F] : Add (Value F) := ⟨Value.add⟩

/-- Whether the value is concretely known. -/
def isKnown : Value F → Bool
  | known _ => true
  | unknown => false

/-- Evaluate to a field element, reading an unknown / unassigned cell as 0
(the mock prover only meets this case on rows where the selector is off). -/
def evalF [Zero F] : Value F → F
  | known x => x
  | unknown => 0

end Value

/-- Polynomial expressions of a gate: queries of advice cells at relative
rotations and of selectors, combined by sum, product and negation
(mirroring halo2's `Expression`; subtraction is sum with a negation). -/
inductive Expr (F : Type) where
  | advice (col : Nat) (rot : Int)
  | selector (s : Nat)
  | sum (a b : Expr F)
  | product (a b : Expr F)
  | negated (a : Expr F)
deriving DecidableEq, Repr

/-- Evaluate an expression given valuations of advice queries and selectors. -/
def Expr.eval {F : Type} [Add F] [Mul F] [Neg F] (adv : Nat → Int → F)
    (sel : Nat → F) : Expr F → F
  | .advice c r => adv c r
  | .selector s => sel s
  | .sum a b => a.eval adv sel + b.eval adv sel
  | .product a b => a.eval adv sel * b.eval adv sel
  | .negated a => -(a.eval adv sel)

/-- A named gate: a list of polynomial constraints (each already gated by
its selector, as halo2's `Constraints::with_selector` produces them). -/
structure Gate (F : Type) where
  name : String
  polys : List (Expr F)
deriving DecidableEq, Repr

/-- A column reference, tagged by kind, for the equality-enabled set. -/
inductive ColRef where
  | adv (i : Nat)
  | inst (i : Nat)
  | fix (i : Nat)
deriving DecidableEq, Repr

/-- The constraint-system builder state handed to `configure`. -/
structure ConstraintSystem (F : Type) where
  numAdvice : Nat := 0
  numInstance : Nat := 0
  numFixed : Nat := 0
  numSelectors : Nat := 0
  equalityEnabled : List ColRef := []
  constantCols : List Nat := []
  gates : List (Gate F) := []
deriving Repr

namespace ConstraintSystem

variable {F : Type}

/-- Allocate a fresh advice column, returning its index. -/
def adviceColumn (m : ConstraintSystem F) : Nat × ConstraintSystem F :=
  (m.numAdvice, { m with numAdvice := m.numAdvice + 1 })

/-- Allocate a fresh instance column, returning its index. -/
def instanceColumn (m : ConstraintSystem F) : Nat × ConstraintSystem F :=
  (m.numInstance, { m with numInstance := m.numInstance + 1 })

/-- Allocate a fresh fixed column, returning its index. -/
def fixedColumn (m : ConstraintSystem F) : Nat × ConstraintSystem F :=
  (m.numFixed, { m with numFixed := m.numFixed + 1 })

/-- Enable equality (copy constraints) on a column. -/
def enableEquality (m : ConstraintSystem F) (c : ColRef) : ConstraintSystem F :=
  { m with equalityEnabled := m.equalityEnabled ++ [c] }

/-- Enable the constant-binding path on a fixed column. -/
def enableConstant (m : ConstraintSystem F) (c : Nat) : ConstraintSystem F :=
  { m with constantCols := m.constantCols ++ [c] }

/-- Allocate a fresh selector, returning its index. -/
def selector (m : ConstraintSystem F) : Nat × ConstraintSystem F :=
  (m.numSelectors, { m with numSelectors := m.numSelectors + 1 })

/-- Register a named gate with the given (selector-gated) polynomials. -/
def createGate (m : ConstraintSystem F) (name : String) (polys : List (Expr F)) :
    ConstraintSystem F :=
  { m with gates := m.gates ++ [⟨name, polys⟩] }

end ConstraintSystem

/-- The `SimpleConfig` of the source: three advice columns, the instance
column, and the selector of the complex gate. -/
structure SimpleConfig where
  advice : Fin 3 → Nat
  instanceCol : Nat
  s_cpx : Nat

/-- An assigned cell: its column, its region-relative row, and its value
(mirroring halo2's `AssignedCell`, which the source wraps in `Number`). -/
structure Cell (F : Type) where
  col : Nat
  row : Nat
  val : Value F
deriving DecidableEq, Repr

/-- halo2's `plonk::Error` (the variants the source can surface). -/
inductive Error where
  | synthesis
  | boundsFailure
  | notEnoughRowsAvailable
deriving DecidableEq, Repr

/-- The trace state the layouter threads through synthesis: cell writes,
enabled selector rows, constant bindings (advice cell equated to a fixed
cell holding the constant), and instance equality constraints
(cell position paired with the instance row it is bound to). -/
structure LState (F : Type) where
  writes : List (Nat × Nat × Value F) := []
  enabledSelectors : List (Nat × Nat) := []
  constantBindings : List (Nat × Nat × F) := []
  instanceConstraints : List ((Nat × Nat) × Nat) := []
deriving DecidableEq, Repr

/-- The region-scoped assignment capability the external engine exposes to
`assign` / `expose_public`: each primitive may fail with a `plonk::Error`. -/
structure Layouter (F : Type) where
  enableSelector : Nat → Nat → LState F → Except Error (Unit × LState F)
  assignAdvice : Nat → Nat → Value F → LState F → Except Error (Cell F × LState F)
  assignAdviceFromConstant : Nat → Nat → F → LState F → Except Error (Cell F × LState F)
  constrainInstance : Cell F → Nat → Nat → LState F → Except Error (Unit × LState F)

/-- The mock layouter: every primitive succeeds and records the operation
in the trace state (as `MockProver`'s layouter does for this circuit). -/
def mockLayouter {F : Type} : Layouter F where
  enableSelector s off st :=
    .ok ((), { st with enabledSelectors := st.enabledSelectors ++ [(s, off)] })
  assignAdvice col off v st :=
    .ok (⟨col, off, v⟩, { st with writes := st.writes ++ [(col, off, v)] })
  assignAdviceFromConstant col off c st :=
    .ok (⟨col, off, .known c⟩,
      { st with writes := st.writes ++ [(col, off, .known c)],
                constantBindings := st.constantBindings ++ [(col, off, c)] })
  constrainInstance cell _icol row st :=
    .ok ((), { st with instanceConstraints :=
      st.instanceConstraints ++ [((cell.col, cell.row), row)] })

/-- The chip: holds the built configuration. -/
structure SimpleChip (F : Type) where
  config : SimpleConfig

namespace SimpleChip

variable {F : Type}

/-- Mirrors `SimpleChip::construct`. -/
def construct (config : SimpleConfig) : SimpleChip F := ⟨config⟩

/-- Mirrors `SimpleChip::configure`: allocate three advice columns, an instance
column, a fixed column; enable equality on the instance column and on the
advice columns, enable constants on the fixed column; allocate the
selector; create the gate "complex_gate" with the single constraint
`e_cub - out` gated by the selector, where `l`, `r`, `c` query advice
0, 1, 2 at the current rotation, `out` queries advice 0 at the next
rotation, `e = (l*r)*(l*r)*c + c` and `e_cub = e*e*e`. -/
def configure (meta : ConstraintSystem F) : SimpleConfig × ConstraintSystem F :=
  let (a0, meta) := meta.adviceColumn
  let (a1, meta) := meta.adviceColumn
  let (a2, meta) := meta.adviceColumn
  let (inst, meta) := meta.instanceColumn
  let (constant, meta) := meta.fixedColumn
  let meta := meta.enableEquality (.inst inst)
  let meta := meta.enableConstant constant
  let meta := meta.enableEquality (.adv a0)
  let meta := meta.enableEquality (.adv a1)
  let meta := meta.enableEquality (.adv a2)
  let (s_cpx, meta) := meta.selector
  let l : Expr F := .advice a0 0
  let r : Expr F := .advice a1 0
  let c : Expr F := .advice a2 0
  let out : Expr F := .advice a0 1
  let s : Expr F := .selector s_cpx
  let e : Expr F := .sum (.product (.product (.product l r) (.product l r)) c) c
  let e_cub : Expr F := .product (.product e e) e
  let meta := meta.createGate "complex_gate" [.product s (.sum e_cub (.negated out))]
  (⟨![a0, a1, a2], inst, s_cpx⟩, meta)

/-- Mirrors `SimpleChip::assign`: within one region, enable the selector at offset
0, write a and b into advice 0 and 1 at offset 0, write c into advice 2
at offset 0 through the constant-binding path, advance the offset to 1,
compute `e = (a*b)*(a*b)*c + c` and `e_cub = e*e*e` from the assigned
cells' values, and write `e_cub` into advice 0 at offset 1, returning
that cell. -/
def assign [Mul F] [Add F] (chip : SimpleChip F) (L : Layouter F)
    (a b : Value F) (c : F) (st : LState F) :
    Except Error (Cell F × LState F) := do
  let offset := 0
  let config := chip.config
  let (_, st) ← L.enableSelector config.s_cpx offset st
  let (a_cell, st) ← L.assignAdvice (config.advice 0) offset a st
  let (b_cell, st) ← L.assignAdvice (config.advice 1) offset b st
  let (c_cell, st) ← L.assignAdviceFromConstant (config.advice 2) offset c st
  let offset := offset + 1
  let e : Value F := (a_cell.val * b_cell.val) * (a_cell.val * b_cell.val)
    * c_cell.val + c_cell.val
  let e_cub := e * e * e
  L.assignAdvice (config.advice 0) offset e_cub st

/-- Mirrors `SimpleChip::expose_public`: equate the given cell with the instance
column's entry at `row`. -/
def exposePublic (chip : SimpleChip F) (L : Layouter F) (out : Cell F)
    (row : Nat) (st : LState F) : Except Error (Unit × LState F) :=
  L.constrainInstance out chip.config.instanceCol row st

end SimpleChip

/-- Mirrors `MyCircuit`: the driver holding the witness (c as a plain field
element, a and b as `Value`s). -/
structure MyCircuit (F : Type) where
  c : F
  a : Value F
  b : Value F
deriving Repr

namespace MyCircuit

variable {F : Type}

/-- The `#[derive(Default)]` instantiation: c is the field's default
(zero) and a, b are `Value::default()`, i.e. unknown. -/
def default [Zero F] : MyCircuit F := ⟨0, .unknown, .unknown⟩

/-- Mirrors `Circuit::without_witnesses`: returns `Self::default()`. -/
def withoutWitnesses [Zero F] (_ : MyCircuit F) : MyCircuit F := MyCircuit.default

/-- Mirrors `Circuit::configure`: delegates to `SimpleChip::configure`; takes no
circuit instance, so it is witness-independent by construction. -/
def configure (meta : ConstraintSystem F) : SimpleConfig × ConstraintSystem F :=
  SimpleChip.configure meta

/-- Mirrors `Circuit::synthesize`: construct the chip from the config, assign the
witness, then expose the returned cell at public row 0, propagating the
first error. -/
def synthesize [Mul F] [Add F] (circ : MyCircuit F) (config : SimpleConfig)
    (L : Layouter F) (st : LState F) : Except Error (Unit × LState F) := do
  let chip : SimpleChip F := SimpleChip.construct config
  let (out, st) ← chip.assign L circ.a circ.b circ.c st
  chip.exposePublic L out 0 st

end MyCircuit

/-- The configuration produced by `configure` on a fresh constraint
system, as the mock-prover run uses it. -/
def theConfig (F : Type) : SimpleConfig :=
  (SimpleChip.configure ({} : ConstraintSystem F)).1

/-- The gates registered by `configure` on a fresh constraint system. -/
def theGates (F : Type) : List (Gate F) :=
  (SimpleChip.configure ({} : ConstraintSystem F)).2.gates

/-- Run `synthesize` with the mock layouter from the empty trace and keep
the resulting trace (the mock layouter never fails, so the error branch
is unreachable). -/
def runSynthesize {F : Type} [Mul F] [Add F] (circ : MyCircuit F) : LState F :=
  match circ.synthesize (theConfig F) mockLayouter {} with
  | .ok (_, st) => st
  | .error _ => {}

namespace LState

variable {F : Type}

/-- The value last written to a cell (unknown when the cell is unassigned). -/
def lookup (st : LState F) (col row : Nat) : Value F :=
  match (st.writes.filter fun w => w.1 == col && w.2.1 == row).getLast? with
  | some w => w.2.2
  | none => .unknown

/-- The advice valuation the mock prover uses at absolute row `r`:
a query of column `col` at rotation `rot` reads row `r + rot`. -/
def advAt [Zero F] (st : LState F) (r : Nat) (col : Nat) (rot : Int) : F :=
  (st.lookup col ((r : Int) + rot).toNat).evalF

/-- The selector valuation at row `r`: 1 where enabled, else 0. -/
def selAt [Zero F] [One F] (st : LState F) (r : Nat) (s : Nat) : F :=
  if (s, r) ∈ st.enabledSelectors then 1 else 0

end LState

/-- All gate polynomials evaluate to zero at row `r` of the trace. -/
def gateHoldsAt {F : Type} [Ring F] [DecidableEq F] (st : LState F)
    (gates : List (Gate F)) (r : Nat) : Bool :=
  gates.all fun g => g.polys.all fun pl =>
    decide (Expr.eval (st.advAt r) (st.selAt r) pl = 0)

/-- Every recorded instance constraint holds: the bound cell is known and
equals the public input at the bound row. -/
def instanceOk {F : Type} [Zero F] [DecidableEq F] (st : LState F)
    (pub : List F) : Bool :=
  st.instanceConstraints.all fun ic =>
    decide (st.lookup ic.1.1 ic.1.2 = Value.known (pub.getD ic.2 0))

/-- The mock prover's verdict: all gates hold on every row of the trace
and all instance constraints hold for the given public inputs. -/
def verify {F : Type} [Ring F] [DecidableEq F] (st : LState F)
    (gates : List (Gate F)) (pub : List F) (rows : Nat) : Bool :=
  ((List.range rows).all fun r => gateHoldsAt st gates r) && instanceOk st pub

/-- Run the whole pipeline for a circuit and check it against the public
inputs, over the two rows the region occupies. -/
def mockVerify {F : Type} [Ring F] [DecidableEq F] (circ : MyCircuit F)
    (pub : List F) : Bool :=
  verify (runSynthesize circ) (theGates F) pub 2

/-- The advice queries (column, rotation) an expression reads. -/
def Expr.queries {F : Type} : Expr F → List (Nat × Int)
  | .advice c r => [(c, r)]
  | .selector _ => []
  | .sum a b => a.queries ++ b.queries
  | .product a b => a.queries ++ b.queries
  | .negated a => a.queries

/-- The spec's gate input `e = ((l*r)*(l*r))*c + c` with `l`, `r`, `c`
read from advice 0, 1, 2 at the current rotation. -/
def gateInputExpr (F : Type) : Expr F :=
  .sum (.product (.product (.product (.advice 0 0) (.advice 1 0))
    (.product (.advice 0 0) (.advice 1 0))) (.advice 2 0)) (.advice 2 0)

/-- The spec's expected gate polynomial: selector times
`e_cub - out`, with `e_cub = (e*e)*e` and `out` read from advice 0 at the
next rotation. -/
def complexGatePoly (F : Type) : Expr F :=
  .product (.selector 0)
    (.sum (.product (.product (gateInputExpr F) (gateInputExpr F)) (gateInputExpr F))
      (.negated (.advice 0 1)))

/-- A layouter whose selector-enabling primitive fails, to exercise the
error propagation of `synthesize`. -/
def failLayouter : Layouter (ZMod 5) where
  enableSelector _ _ _ := .error .synthesis
  assignAdvice col off v st := .ok (⟨col, off, v⟩, st)
  assignAdviceFromConstant col off c st := .ok (⟨col, off, .known c⟩, st)
  constrainInstance _ _ _ st := .ok ((), st)

section VerifyTheorems

variable {F : Type} [Field F] [DecidableEq F]

/-- C1: for all field elements a, b, c, running `assign` followed by
`expose_public` of the returned cell at row 0 and then verification with
public input p succeeds iff `p = ((a*b)^2 * c + c)^3`; moreover the gate
polynomial, evaluated at the enabling row on the assigned witness, equals
zero. -/
theorem verify_iff_public_input_correct (a b c p : F) :
    (mockVerify (⟨c, .known a, .known b⟩ : MyCircuit F) [p] = true ↔
      p = ((a * b) ^ 2 * c + c) ^ 3) ∧
    gateHoldsAt (runSynthesize (⟨c, .known a, .known b⟩ : MyCircuit F))
      (theGates F) 0 = true := by
  have hst : runSynthesize (⟨c, .known a, .known b⟩ : MyCircuit F) =
      { writes := [(0, 0, .known a), (1, 0, .known b), (2, 0, .known c),
          (0, 1, .known ((((a * b) * (a * b) * c + c) * ((a * b) * (a * b) * c + c))
            * ((a * b) * (a * b) * c + c)))],
        enabledSelectors := [(0, 0)],
        constantBindings := [(2, 0, c)],
        instanceConstraints := [((0, 1), 0)] } := rfl
  rw [mockVerify, hst]
  simp [verify, gateHoldsAt, instanceOk, theGates, SimpleChip.configure,
    ConstraintSystem.adviceColumn, ConstraintSystem.instanceColumn,
    ConstraintSystem.fixedColumn, ConstraintSystem.enableEquality,
    ConstraintSystem.enableConstant, ConstraintSystem.selector,
    ConstraintSystem.createGate, List.range_succ, Expr.eval, LState.advAt,
    LState.selAt, LState.lookup, Value.evalF]
  constructor
  · intro h
    rw [← h]
    ring
  · intro h
    rw [h]
    ring

end VerifyTheorems

section StructureTheorems

variable {F : Type} [Field F]

/-- C2: `configure` declares exactly one gate, named "complex_gate", whose
single polynomial is the selector times `e_cub - out` with
`e = ((l*r)*(l*r))*c + c` over advice 0, 1, 2 at the current rotation and
`out` at advice 0 at the next rotation; its evaluation under any valuation
is the selector value times `(((l*r)*(l*r)*c + c)^3 - out)`, and the
config's columns are the queried ones. -/
theorem configure_declares_complex_gate (adv : Nat → Int → F) (sel : Nat → F) :
    theGates F = [⟨"complex_gate", [complexGatePoly F]⟩] ∧
    Expr.eval adv sel (complexGatePoly F) =
      sel (theConfig F).s_cpx *
        (((adv 0 0 * adv 1 0) * (adv 0 0 * adv 1 0) * adv 2 0 + adv 2 0) ^ 3
          - adv 0 1) ∧
    (theConfig F).s_cpx = 0 ∧ (theConfig F).advice 0 = 0 ∧
    (theConfig F).advice 1 = 1 ∧ (theConfig F).advice 2 = 2 := by
  refine ⟨rfl, ?_, rfl, rfl, rfl, rfl⟩
  have hs : (theConfig F).s_cpx = 0 := rfl
  rw [hs]
  simp only [Expr.eval, complexGatePoly, gateInputExpr]
  ring

/-- C3: `assign` computes the output with `Value` arithmetic mirroring the
gate polynomial: on known a, b the returned cell's value is
`known (((a*b)^2 * c + c)^3)`; if a or b is unknown, the returned cell's
value is unknown but the cell (advice 0, row 1) and its trace write are
still present. -/
theorem assign_result_value (x y cc : F) (av bv : Value F) :
    (((SimpleChip.construct (theConfig F)).assign mockLayouter
        (.known x) (.known y) cc {}).map fun r => r.1.val) =
      .ok (.known (((x * y) ^ 2 * cc + cc) ^ 3)) ∧
    (((SimpleChip.construct (theConfig F)).assign mockLayouter
        .unknown bv cc {}).map fun r =>
          (r.1.col, r.1.row, r.1.val, r.2.writes.getLast?)) =
      .ok (0, 1, Value.unknown, some (0, 1, Value.unknown)) ∧
    (((SimpleChip.construct (theConfig F)).assign mockLayouter
        av .unknown cc {}).map fun r =>
          (r.1.col, r.1.row, r.1.val, r.2.writes.getLast?)) =
      .ok (0, 1, Value.unknown, some (0, 1, Value.unknown)) := by
  refine ⟨?_, ?_, ?_⟩
  · show Except.ok (Value.known ((((x * y) * (x * y) * cc + cc)
      * ((x * y) * (x * y) * cc + cc)) * ((x * y) * (x * y) * cc + cc))) = _
    exact congrArg (fun t => Except.ok (Value.known t)) (by ring)
  · rfl
  · cases av <;> rfl

/-- C4: within the single region of `assign`, the selector is enabled at
exactly offset 0, where a, b, c are written into advice 0, 1, 2, and the
output cell is written at offset 1 into advice 0 — the column the gate
queries at the next-row rotation. -/
theorem assign_row_alignment (a b : Value F) (c : F) :
    (((SimpleChip.construct (theConfig F)).assign mockLayouter a b c {}).map
      fun r => (r.1.col, r.1.row, r.2.enabledSelectors,
        r.2.writes.map fun w => (w.1, w.2.1))) =
      .ok ((theConfig F).advice 0, 1, [((theConfig F).s_cpx, 0)],
        [((theConfig F).advice 0, 0), ((theConfig F).advice 1, 0),
         ((theConfig F).advice 2, 0), ((theConfig F).advice 0, 1)]) ∧
    ((theConfig F).advice 0, (1 : Int)) ∈ Expr.queries (complexGatePoly F) ∧
    theGates F = [⟨"complex_gate", [complexGatePoly F]⟩] := by
  refine ⟨rfl, ?_, rfl⟩
  show ((0 : Nat), (1 : Int)) ∈ Expr.queries (complexGatePoly F)
  simp [complexGatePoly, gateInputExpr, Expr.queries]

/-- C5: `without_witnesses` returns the default circuit — a and b unknown,
c at the field's default value zero — and the driver's `configure` is the
chip's `configure`, which takes no circuit instance, so the keygen
instantiation configures to the identical `Config` as the witnessed one. -/
theorem without_witnesses_default (circ : MyCircuit F)
    (meta : ConstraintSystem F) :
    circ.withoutWitnesses = (⟨0, .unknown, .unknown⟩ : MyCircuit F) ∧
    MyCircuit.configure meta = SimpleChip.configure meta ∧
    (MyCircuit.configure ({} : ConstraintSystem F)).1 = theConfig F :=
  ⟨rfl, rfl, rfl⟩

end StructureTheorems

/-- C6: `synthesize` constructs the chip from the config, calls `assign`,
then `expose_public` of the returned cell at public row 0; it
short-circuits, propagating the first failure of `assign` unchanged and
otherwise returning exactly what `expose_public` returns. -/
theorem synthesize_short_circuits {F : Type} [Mul F] [Add F]
    (L : Layouter F) (circ : MyCircuit F)
    (cfg : SimpleConfig) (st : LState F) :
    (∀ e, (SimpleChip.construct cfg : SimpleChip F).assign L
        circ.a circ.b circ.c st = .error e →
      circ.synthesize cfg L st = .error e) ∧
    (∀ out st1, (SimpleChip.construct cfg : SimpleChip F).assign L
        circ.a circ.b circ.c st = .ok (out, st1) →
      circ.synthesize cfg L st =
        (SimpleChip.construct cfg : SimpleChip F).exposePublic L out 0 st1) := by
  constructor
  · intro e h
    simp [MyCircuit.synthesize, Bind.bind, Except.bind, h]
  · intro out st1 h
    simp [MyCircuit.synthesize, Bind.bind, Except.bind, h]

/-- Witness for C6: with a layouter whose selector primitive fails,
`synthesize` returns that very error; with the mock layouter it returns
what `expose_public` returns on the assigned output cell. -/
theorem synthesize_short_circuits_witness :
    MyCircuit.synthesize (⟨1, .known 1, .known 1⟩ : MyCircuit (ZMod 5))
      (theConfig (ZMod 5)) failLayouter {} = .error .synthesis ∧
    MyCircuit.synthesize (⟨1, .known 1, .known 1⟩ : MyCircuit (ZMod 5))
      (theConfig (ZMod 5)) mockLayouter {} =
      (SimpleChip.construct (theConfig (ZMod 5))).exposePublic mockLayouter
        ⟨0, 1, .known 3⟩ 0
        ({ writes := [(0, 0, .known 1), (1, 0, .known 1), (2, 0, .known 1),
              (0, 1, .known 3)],
           enabledSelectors := [(0, 0)],
           constantBindings := [(2, 0, 1)],
           instanceConstraints := [] } : LState (ZMod 5)) :=
  ⟨(synthesize_short_circuits failLayouter _ _ _).1 .synthesis rfl,
   (synthesize_short_circuits mockLayouter _ _ _).2 ⟨0, 1, .known 3⟩ _ rfl⟩

section TraceTheorems

variable {F : Type} [Field F]

/-- C7: `assign` writes c into advice 2 at offset 0 through the
constant-binding path: the trace records the equality binding of that cell
to the circuit-wide constant c, and the cell itself holds `known c`. -/
theorem c_through_constant_binding (circ : MyCircuit F) :
    (runSynthesize circ).constantBindings =
      [((theConfig F).advice 2, 0, circ.c)] ∧
    (runSynthesize circ).lookup ((theConfig F).advice 2) 0 = .known circ.c :=
  ⟨rfl, rfl⟩

/-- C8: `Value` arithmetic is total: two knowns combine to the known field
result, and any unknown operand makes the result unknown. -/
theorem value_arithmetic_total (x y : F) (v : Value F) :
    ((Value.known x) * (Value.known y) : Value F) = .known (x * y) ∧
    ((Value.known x) + (Value.known y) : Value F) = .known (x + y) ∧
    ((Value.unknown : Value F) * v = .unknown) ∧
    (v * (Value.unknown : Value F) = .unknown) ∧
    ((Value.unknown : Value F) + v = .unknown) ∧
    (v + (Value.unknown : Value F) = .unknown) :=
  ⟨rfl, rfl, rfl, by cases v <;> rfl, rfl, by cases v <;> rfl⟩

/-- C9: `assign` is deterministic: two independent calls with identical
inputs (a, b, c) — even started from different layouter states — return
cells carrying identical values. -/
theorem assign_deterministic (cfg : SimpleConfig) (a b : Value F) (c : F)
    (s1 s2 : LState F) :
    (((SimpleChip.construct cfg : SimpleChip F).assign mockLayouter
        a b c s1).map fun r => r.1.val) =
    (((SimpleChip.construct cfg : SimpleChip F).assign mockLayouter
        a b c s2).map fun r => r.1.val) :=
  rfl

/-- C10: c is a plain field element, so the output value of `assign` is
known exactly when both a and b are known; and the keygen pass through
`without_witnesses` binds the constant zero (the default c) into the
circuit structure. -/
theorem c_never_unknown (av bv : Value F) (cc : F) (circ : MyCircuit F) :
    (((SimpleChip.construct (theConfig F)).assign mockLayouter
        av bv cc {}).map fun r => r.1.val.isKnown) =
      .ok (av.isKnown && bv.isKnown) ∧
    (runSynthesize circ.withoutWitnesses).constantBindings =
      [((theConfig F).advice 2, 0, (0 : F))] := by
  refine ⟨?_, rfl⟩
  cases av <;> cases bv <;> rfl

end TraceTheorems

end Ex5
